import Mathlib

/-!
Verification of the record-storage core of the passworld repository
(`src/database.py`, `src/function.py`) against its specification.

The embedding models the `Database` class as pure functions over an
explicit database state.  SQLite itself is external to the repository;
it is modelled as a typed relational store: a database is a list of
named tables, a table is a schema (ordered column definitions, as passed
to `Database.create`) together with a list of rows, and a row is a list
of primitive values in schema order.  Predicates (the `condition`
dictionaries) are equality maps, matched per the data model of the
specification; the statement text built by the source (including the
interpolated predicate values the specification flags as a hardening
point) is not re-parsed here.  Statement failures that the source can
actually trigger (missing table, unknown column, malformed empty column
or value lists, constraint violations) are surfaced as `Except` errors
by the raw operations, and the `@error` decorator is modelled by
`errorWrap`, which converts any such error into the uniform `False`
result (`OpResult.failed`).  The `@check` decorator is modelled by
`guardDiags`, which reproduces the source's `if table and table not in
self.tables()` test, emitting a diagnostic to the reporting sink.
-/

namespace Passworld

/-- A primitive SQLite value: integer, text, or NULL.  (REAL values do
not occur anywhere in the repository and are omitted.) -/
inductive Value where
  | intV (n : Int)
  | strV (s : String)
  | nullV
deriving DecidableEq, Repr

/-- One row of a table: the cell values in schema (creation) order. -/
abbrev Row := List Value

/-- One column definition as passed to `Database.create`: the tuple
`(name, data_type, *constraints)` from the source. -/
structure ColumnDef where
  name : String
  dtype : String
  constraints : List String
deriving DecidableEq, Repr

/-- A placeholder column used only as the default of `List.getD`. -/
def dummyCol : ColumnDef := ⟨"", "", []⟩

/-- Whether the token list `p` occurs contiguously in `l`. -/
def hasRun (p : List String) : List String → Bool
  | [] => p.isEmpty
  | a :: l => List.isPrefixOf p (a :: l) || hasRun p l

/-- The column is declared PRIMARY KEY.  The repository writes the
constraint either as the two tokens `"PRIMARY", "KEY"` (function.py) or
could join them in one string; both spellings are recognised. -/
def ColumnDef.isPK (c : ColumnDef) : Bool :=
  hasRun ["PRIMARY", "KEY"] c.constraints || c.constraints.contains "PRIMARY KEY"

/-- The column is declared NOT NULL. -/
def ColumnDef.isNotNull (c : ColumnDef) : Bool :=
  hasRun ["NOT", "NULL"] c.constraints || c.constraints.contains "NOT NULL"

/-- The column carries an explicit UNIQUE constraint. -/
def ColumnDef.isUnique (c : ColumnDef) : Bool :=
  c.constraints.contains "UNIQUE"

/-- A table: its schema (column definitions in creation order) and its
rows (in insertion order; for this repository's use the backend row
order coincides with insertion order). -/
structure Table where
  schema : List ColumnDef
  rows : List Row
deriving DecidableEq, Repr

/-- The database state: named tables, in creation order. -/
abbrev DB := List (String × Table)

/-- Look up a table by name. -/
def dbLookup : DB → String → Option Table
  | [], _ => none
  | p :: rest, t => if p.1 == t then some p.2 else dbLookup rest t

/-- Replace the table named `t`. -/
def setTable : DB → String → Table → DB
  | [], _, _ => []
  | p :: rest, t, tbl => (if p.1 == t then (p.1, tbl) else p) :: setTable rest t tbl

/-- The column names of a schema, in creation order. -/
def schemaNames (s : List ColumnDef) : List String := s.map ColumnDef.name

/-- Membership test on a list of strings. -/
def containsStr : List String → String → Bool
  | [], _ => false
  | a :: l, s => (a == s) || containsStr l s

/-- `SELECT name FROM sqlite_master WHERE type='table'`: the list of
table names. -/
def tablesList (db : DB) : List String := db.map Prod.fst

/-- A backend statement error (`sqlite3.Error`). -/
inductive SqlErr where
  | noSuchTable
  | noSuchColumn
  | notNullViolation
  | uniqueViolation
  | malformed
  | datatypeMismatch
deriving DecidableEq, Repr

/-- A diagnostic sent to the reporting sink (the rich console). -/
inductive Diag where
  | tableDoesNotExist (t : String)
deriving DecidableEq, Repr

/-- The result of a public `Database` operation: the method's return
value, or the uniform failure value `False` produced by the `@error`
decorator.  There is no exception alternative: the public contract
cannot throw. -/
inductive OpResult (α : Type) where
  | ok (a : α)
  | failed
deriving DecidableEq, Repr

/-- Python dictionary lookup on an association list (first binding
wins; actual dictionaries have distinct keys). -/
def lookupVal : List (String × Value) → String → Option Value
  | [], _ => none
  | p :: rest, k => if p.1 == k then some p.2 else lookupVal rest k

/-- Cell of row `r` at the first column named `k` (NULL if no such
column; the raw operations reject unknown columns before this is
used). -/
def rowCol : List ColumnDef → Row → String → Value
  | [], _, _ => .nullV
  | c :: cs, r, k => if c.name == k then r.headD .nullV else rowCol cs r.tail k

/-- An equality predicate, as the optional `condition` dictionary. -/
abbrev Pred := Option (List (String × Value))

/-- Row satisfaction of a predicate: every listed column equals the
listed value, conjunctively; an absent or empty (falsy) condition
matches every row, per `if condition:` in the source. -/
def rowMatches (schema : List ColumnDef) (cond : Pred) (r : Row) : Bool :=
  match cond with
  | none => true
  | some cs => cs.all fun p => rowCol schema r p.1 == p.2

/-- Every predicate column names a schema column (otherwise the
statement fails with "no such column"). -/
def predOk (schema : List ColumnDef) (cond : Pred) : Bool :=
  match cond with
  | none => true
  | some cs => cs.all fun p => containsStr (schemaNames schema) p.1

/-- The row truncated or padded to schema length, cell `j` being the
value of the `j`-th schema column: the projection produced by
`SELECT *`. -/
def normalizeRow : List ColumnDef → Row → Row
  | [], _ => []
  | _ :: cs, r => r.headD .nullV :: normalizeRow cs r.tail

/-- Projection of a row onto the requested columns.  A `None` or empty
(falsy) column list selects `*`, i.e. all columns in schema order, per
`if columns:` in the source. -/
def projectRow (schema : List ColumnDef) (cols : Option (List String)) (r : Row) : Row :=
  match cols with
  | some (c :: cs) => (c :: cs).map (rowCol schema r)
  | _ => normalizeRow schema r

/-- Every requested column names a schema column; vacuous for a falsy
column list (which selects `*`). -/
def colsOk (schema : List ColumnDef) (cols : Option (List String)) : Bool :=
  match cols with
  | some (c :: cs) => (c :: cs).all fun k => containsStr (schemaNames schema) k
  | _ => true

/-- The NOT NULL constraints hold of a row. -/
def notNullOk : List ColumnDef → Row → Bool
  | [], _ => true
  | c :: cs, r =>
      (!c.isNotNull || !(r.headD .nullV == .nullV)) && notNullOk cs r.tail

/-- Inserting `newRow` violates no PRIMARY KEY / UNIQUE constraint: in
each uniqueness-constrained column, a non-NULL new cell differs from
every existing cell. -/
def uniqueOkRow : List ColumnDef → List Row → Row → Bool
  | [], _, _ => true
  | c :: cs, rows, nr =>
      (!(c.isPK || c.isUnique) ||
        (nr.headD .nullV == .nullV ||
          rows.all fun r => !(r.headD .nullV == nr.headD .nullV)))
      && uniqueOkRow cs (rows.map List.tail) nr.tail

/-- All non-NULL values in the list are pairwise distinct. -/
def distinctNonNull : List Value → Bool
  | [] => true
  | v :: rest => (v == .nullV || !(rest.contains v)) && distinctNonNull rest

/-- After an UPDATE, each uniqueness-constrained column still has
pairwise distinct non-NULL cells. -/
def uniqueColsAllOk : List ColumnDef → List Row → Bool
  | [], _ => true
  | c :: cs, rows =>
      (!(c.isPK || c.isUnique) ||
        distinctNonNull (rows.map fun r => r.headD .nullV))
      && uniqueColsAllOk cs (rows.map List.tail)

/-- The cells of the first PRIMARY KEY column. -/
def pkCells : List ColumnDef → List Row → List Value
  | [], _ => []
  | c :: cs, rows =>
      if c.isPK then rows.map fun r => r.headD .nullV
      else pkCells cs (rows.map List.tail)

/-- The largest integer in the list (0 if none): used for rowid
assignment, `newRowid = max(existing) + 1`. -/
def maxIntList (l : List Value) : Int :=
  l.foldl (fun m v => match v with | .intV n => max m n | _ => m) 0

/-- The name of the first PRIMARY KEY column, if any. -/
def pkName : List ColumnDef → Option String
  | [] => none
  | c :: cs => if c.isPK then some c.name else pkName cs

/-- The identity assigned by an INSERT (`cursor.lastrowid`): the
supplied integer primary-key value if one is given; otherwise (absent
or NULL) the auto-assigned next rowid.  A non-numeric value in the
INTEGER PRIMARY KEY column is a datatype mismatch.  For a table without
a declared primary key the hidden rowid is abstracted as the row
count plus one. -/
def insertRowid (tbl : Table) (data : List (String × Value)) : Except SqlErr Int :=
  match pkName tbl.schema with
  | some pn =>
    match lookupVal data pn with
    | some (.intV n) => .ok n
    | some (.strV _) => .error .datatypeMismatch
    | some .nullV => .ok (maxIntList (pkCells tbl.schema tbl.rows) + 1)
    | none => .ok (maxIntList (pkCells tbl.schema tbl.rows) + 1)
  | none => .ok (Int.ofNat tbl.rows.length + 1)

/-- The cell stored for column `c` by an INSERT: the assigned identity
for the primary-key column, the supplied value for a bound column,
NULL otherwise. -/
def insertCell (c : ColumnDef) (data : List (String × Value)) (rid : Int) : Value :=
  if c.isPK then .intV rid
  else (lookupVal data c.name).getD .nullV

/-- The full row stored by an INSERT, in schema order. -/
def buildRow (schema : List ColumnDef) (data : List (String × Value)) (rid : Int) : Row :=
  schema.map fun c => insertCell c data rid

/-- A row updated by `UPDATE ... SET`: every listed column is
overwritten with its new value, the rest keep their cells. -/
def overwrite : List ColumnDef → List (String × Value) → Row → Row
  | [], _, _ => []
  | c :: cs, values, r =>
      (match lookupVal values c.name with
       | some v => v
       | none => r.headD .nullV) :: overwrite cs values r.tail

/-- Fetch mode of `Database.select`. -/
inductive Mode where
  | fetchOne
  | fetchAll
deriving DecidableEq, Repr

/-- Result of `Database.select`: `cursor.fetchone()` (a row or an
explicit absence) in fetch-one mode, `cursor.fetchall()` (a possibly
empty row list) in fetch-all mode. -/
inductive SelectRes where
  | one (r : Option Row)
  | many (rs : List Row)
deriving DecidableEq, Repr

/-- `PRAGMA table_info(table)` row:
`(cid, name, type, notnull, dflt_value, pk)`.  The source indexes this
tuple: field 1 is the column name, field 5 the primary-key flag. -/
structure TableInfoRow where
  cid : Nat
  name : String
  ctype : String
  notnull : Nat
  dflt : Value
  pk : Nat
deriving DecidableEq, Repr

/-- `PRAGMA table_info` rows for consecutive columns starting at
index `i`. -/
def tableInfoAux : Nat → List ColumnDef → List TableInfoRow
  | _, [] => []
  | i, c :: cs =>
      ⟨i, c.name, c.dtype, if c.isNotNull then 1 else 0, .nullV,
        if c.isPK then 1 else 0⟩ :: tableInfoAux (i + 1) cs

/-- `PRAGMA table_info(table)` for an existing table. -/
def tableInfo (tbl : Table) : List TableInfoRow := tableInfoAux 0 tbl.schema

/-- `Database.tables` body: list the table names.  The fixed statement
cannot fail. -/
def rawTables (db : DB) : Except SqlErr (DB × List String) :=
  .ok (db, tablesList db)

/-- `Database.create` body: `CREATE TABLE IF NOT EXISTS`.  An empty
column list renders as `(...)` with nothing inside — a malformed
statement; if the table already exists the statement is a no-op;
declaring more than one PRIMARY KEY is rejected by the backend. -/
def rawCreate (db : DB) (t : String) (cols : List ColumnDef) :
    Except SqlErr (DB × Unit) :=
  if cols = [] then .error .malformed
  else if containsStr (tablesList db) t then .ok (db, ())
  else if 2 ≤ (cols.filter ColumnDef.isPK).length then .error .malformed
  else .ok (db ++ [(t, ⟨cols, []⟩)], ())

/-- `Database.insert` body: `INSERT INTO t (cols) VALUES (?...)`,
returning `cursor.lastrowid`.  An empty data dictionary renders as
`()` — malformed; unknown columns, a non-integer primary-key value, a
NULL in a NOT NULL column, and uniqueness violations are backend
errors. -/
def rawInsert (db : DB) (t : String) (data : List (String × Value)) :
    Except SqlErr (DB × Int) :=
  match dbLookup db t with
  | none => .error .noSuchTable
  | some tbl =>
    if data = [] then .error .malformed
    else if !(data.all fun p => containsStr (schemaNames tbl.schema) p.1) then
      .error .noSuchColumn
    else
      match insertRowid tbl data with
      | .error e => .error e
      | .ok rid =>
        if !(notNullOk tbl.schema (buildRow tbl.schema data rid)) then
          .error .notNullViolation
        else if !(uniqueOkRow tbl.schema tbl.rows (buildRow tbl.schema data rid)) then
          .error .uniqueViolation
        else
          .ok (setTable db t ⟨tbl.schema, tbl.rows ++ [buildRow tbl.schema data rid]⟩, rid)

/-- `Database.unique_columns` body: filter the `PRAGMA table_info`
rows on field 5 (`column[5] == 1`) and return field 1 of each.  On a
missing table the pragma yields no rows rather than an error. -/
def rawUniqueColumns (db : DB) (t : String) : Except SqlErr (DB × List String) :=
  .ok (db,
    match dbLookup db t with
    | none => []
    | some tbl => ((tableInfo tbl).filter fun r => r.pk == 1).map TableInfoRow.name)

/-- `Database.columns` body: field 1 of each `PRAGMA table_info` row.
On a missing table the pragma yields no rows rather than an error. -/
def rawColumns (db : DB) (t : String) : Except SqlErr (DB × List String) :=
  .ok (db,
    match dbLookup db t with
    | none => []
    | some tbl => (tableInfo tbl).map TableInfoRow.name)

/-- `Database.select` body.  The WHERE clause keeps the rows matching
the predicate; `LIMIT` is appended only when `limit` is truthy and the
mode is fetch-all (`if limit and mode == "fetch-all"`), and a
non-positive SQL `LIMIT` does not restrict the row set. -/
def rawSelect (db : DB) (t : String) (cols : Option (List String)) (cond : Pred)
    (mode : Mode) (lim : Option Int) : Except SqlErr (DB × SelectRes) :=
  match dbLookup db t with
  | none => .error .noSuchTable
  | some tbl =>
    if !(colsOk tbl.schema cols) then .error .noSuchColumn
    else if !(predOk tbl.schema cond) then .error .noSuchColumn
    else
      let ms := (tbl.rows.filter (rowMatches tbl.schema cond)).map
        (projectRow tbl.schema cols)
      match mode with
      | .fetchOne => .ok (db, .one ms.head?)
      | .fetchAll =>
        .ok (db, .many (match lim with
          | some l => if l ≤ 0 then ms else ms.take l.toNat
          | none => ms))

/-- `Database.update` body: `UPDATE t SET c = ? ... [WHERE ...]`,
returning `rowcount > 0` (the number of rows hit by the statement).
An empty values dictionary is malformed; unknown columns are errors;
constraint violations abort the statement with no change. -/
def rawUpdate (db : DB) (t : String) (values : List (String × Value)) (cond : Pred) :
    Except SqlErr (DB × Bool) :=
  match dbLookup db t with
  | none => .error .noSuchTable
  | some tbl =>
    if values = [] then .error .malformed
    else if !(values.all fun p => containsStr (schemaNames tbl.schema) p.1) then
      .error .noSuchColumn
    else if !(predOk tbl.schema cond) then .error .noSuchColumn
    else
      let m := rowMatches tbl.schema cond
      let newRows := tbl.rows.map fun r => if m r then overwrite tbl.schema values r else r
      if !(tbl.rows.all fun r => !(m r) || notNullOk tbl.schema (overwrite tbl.schema values r)) then
        .error .notNullViolation
      else if !(uniqueColsAllOk tbl.schema newRows) then .error .uniqueViolation
      else
        .ok (setTable db t ⟨tbl.schema, newRows⟩,
          decide (0 < (tbl.rows.filter m).length))

/-- `Database.delete` body: `DELETE FROM t [WHERE ...]`, returning
`rowcount > 0`. -/
def rawDelete (db : DB) (t : String) (cond : Pred) : Except SqlErr (DB × Bool) :=
  match dbLookup db t with
  | none => .error .noSuchTable
  | some tbl =>
    if !(predOk tbl.schema cond) then .error .noSuchColumn
    else
      let m := rowMatches tbl.schema cond
      .ok (setTable db t ⟨tbl.schema, tbl.rows.filter fun r => !(m r)⟩,
        decide (0 < (tbl.rows.filter m).length))

/-- The `@error` decorator (`Database.error`): run the method; if a
`sqlite3.Error` escapes, swallow it and return `False`.  A failed
statement leaves the database unchanged. -/
def errorWrap {α : Type} (raw : DB → Except SqlErr (DB × α)) (db : DB) :
    DB × OpResult α :=
  match raw db with
  | .ok p => (p.1, .ok p.2)
  | .error _ => (db, .failed)

/-- The `@check(check_type="table")` decorator: the diagnostics it
prints.  Per `if table and table not in self.tables()`, the warning is
emitted only for a truthy (non-empty) table name that is absent from
the table list; the wrapped method then runs regardless. -/
def guardDiags (db : DB) (t : String) : List Diag :=
  if !(t == "") && !(containsStr (tablesList db) t) then [.tableDoesNotExist t]
  else []

namespace Database

/-- Public `Database.tables` (decorated with `@error`). -/
def tables (db : DB) : DB × OpResult (List String) :=
  errorWrap rawTables db

/-- Public `Database.create` (decorated with `@error`; no table
check). -/
def create (db : DB) (t : String) (cols : List ColumnDef) : DB × OpResult Unit :=
  errorWrap (fun d => rawCreate d t cols) db

/-- Public `Database.insert` (decorated with `@error` and `@check`):
the new state, the diagnostics printed by the guard, and the result. -/
def insert (db : DB) (t : String) (data : List (String × Value)) :
    DB × List Diag × OpResult Int :=
  ((errorWrap (fun d => rawInsert d t data) db).1, guardDiags db t,
    (errorWrap (fun d => rawInsert d t data) db).2)

/-- Public `Database.unique_columns` (decorated with `@error` and
`@check`). -/
def unique_columns (db : DB) (t : String) :
    DB × List Diag × OpResult (List String) :=
  ((errorWrap (fun d => rawUniqueColumns d t) db).1, guardDiags db t,
    (errorWrap (fun d => rawUniqueColumns d t) db).2)

/-- Public `Database.columns` (decorated with `@error` and `@check`). -/
def columns (db : DB) (t : String) : DB × List Diag × OpResult (List String) :=
  ((errorWrap (fun d => rawColumns d t) db).1, guardDiags db t,
    (errorWrap (fun d => rawColumns d t) db).2)

/-- Public `Database.select` (decorated with `@error` and `@check`). -/
def select (db : DB) (t : String) (cols : Option (List String)) (cond : Pred)
    (mode : Mode) (lim : Option Int) : DB × List Diag × OpResult SelectRes :=
  ((errorWrap (fun d => rawSelect d t cols cond mode lim) db).1, guardDiags db t,
    (errorWrap (fun d => rawSelect d t cols cond mode lim) db).2)

/-- Public `Database.update` (decorated with `@error` and `@check`). -/
def update (db : DB) (t : String) (values : List (String × Value)) (cond : Pred) :
    DB × List Diag × OpResult Bool :=
  ((errorWrap (fun d => rawUpdate d t values cond) db).1, guardDiags db t,
    (errorWrap (fun d => rawUpdate d t values cond) db).2)

/-- Public `Database.delete` (decorated with `@error` and `@check`). -/
def delete (db : DB) (t : String) (cond : Pred) : DB × List Diag × OpResult Bool :=
  ((errorWrap (fun d => rawDelete d t cond) db).1, guardDiags db t,
    (errorWrap (fun d => rawDelete d t cond) db).2)

end Database

/-- A Store Handle: the durable (committed) database state, the state
visible through the open connection, and the open/closed flag. -/
structure Handle where
  disk : DB
  mem : DB
  isOpen : Bool
deriving DecidableEq, Repr

/-- `Database.__init__`: open (or create) the backing file.  The
filesystem side (directory creation) is outside the state model. -/
def connect (disk : DB) : Handle := ⟨disk, disk, true⟩

/-- How the body of a `with` block can leave the scope. -/
inductive BodyOutcome (ε α : Type) where
  | normal (a : α)
  | earlyReturn (a : α)
  | raised (e : ε)
deriving DecidableEq, Repr

/-- `Database.__exit__` effect: `connection.commit()` then
`connection.close()` — the visible state becomes durable and the
handle closes. -/
def dbExit (h : Handle) : Handle := ⟨h.mem, h.mem, false⟩

/-- `Database.__exit__` returns `args, kwargs` — a 2-tuple.  Python
suppresses the body's exception exactly when the `__exit__` return is
truthy, and a tuple is truthy when non-empty. -/
def exitReturnLen : Nat := 2

/-- Truthiness of the `__exit__` return value. -/
def exitReturnTruthy : Bool := decide (0 < exitReturnLen)

/-- Scoped acquisition (`with Database(...) as db:`): open the handle,
run the body, and on every exit path run `__exit__` (commit + close).
The second component is the exception, if any, that propagates out of
the `with` statement. -/
def withStore {ε α : Type} (disk : DB) (body : Handle → Handle × BodyOutcome ε α) :
    Handle × Option ε :=
  let r := body (connect disk)
  (dbExit r.1,
    match r.2 with
    | .raised e => if exitReturnTruthy then none else some e
    | _ => none)

/-- The `passwords` table schema created by `initialization` in
function.py. -/
def passwordsColumns : List ColumnDef :=
  [⟨"id", "INTEGER", ["PRIMARY", "KEY"]⟩,
   ⟨"name", "TEXT", ["NOT NULL"]⟩,
   ⟨"website", "TEXT", ["NOT NULL"]⟩,
   ⟨"username", "TEXT", []⟩,
   ⟨"password", "TEXT", ["NOT NULL"]⟩,
   ⟨"note", "TEXT", []⟩]

/-- The "ensure schema" step: `db.create("passwords", ...)` as invoked
by `initialization`. -/
def ensureSchema (db : DB) : DB × OpResult Unit :=
  Database.create db "passwords" passwordsColumns

/-- The body of `initialization`: create the `passwords` table on the
open handle. -/
def initializationBody (h : Handle) : Handle × BodyOutcome Unit Unit :=
  (⟨h.disk, (ensureSchema h.mem).1, h.isOpen⟩, .normal ())

/-- `initialization` from function.py: ensure the schema inside a
scoped store acquisition. -/
def initialization (disk : DB) : Handle × Option Unit :=
  withStore disk initializationBody

/-- Whether an `Except` value is an error. -/
def isErr {ε α : Type} : Except ε α → Bool
  | .error _ => true
  | .ok _ => false

section Lemmas

theorem errorWrap_eq_ok {α : Type} {raw : DB → Except SqlErr (DB × α)} {db db2 : DB}
    {a : α} : errorWrap raw db = (db2, .ok a) ↔ raw db = .ok (db2, a) := by
  cases h : raw db with
  | ok p =>
    simp only [errorWrap, h, Prod.mk.injEq, Except.ok.injEq, OpResult.ok.injEq]
    constructor
    · rintro ⟨h1, h2⟩; cases p; simp_all
    · rintro h1; cases p; simp_all
  | error e =>
    simp only [errorWrap, h, Prod.mk.injEq]
    constructor
    · rintro ⟨-, h2⟩; cases h2
    · rintro h1; cases h1

theorem errorWrap_of_isErr {α : Type} (raw : DB → Except SqlErr (DB × α)) (db : DB)
    (h : isErr (raw db) = true) : errorWrap raw db = (db, .failed) := by
  cases hr : raw db with
  | ok p => rw [hr] at h; cases h
  | error e => simp [errorWrap, hr]

theorem containsStr_iff {l : List String} {s : String} :
    containsStr l s = true ↔ s ∈ l := by
  induction l with
  | nil => simp [containsStr]
  | cons a l ih =>
    simp only [containsStr, Bool.or_eq_true, beq_iff_eq, List.mem_cons, ih]
    exact or_congr_left eq_comm

theorem containsStr_tablesList {db : DB} {t : String} {x : Table}
    (h : dbLookup db t = some x) : containsStr (tablesList db) t = true := by
  induction db with
  | nil => cases h
  | cons p rest ih =>
    simp only [dbLookup] at h
    by_cases hp : p.1 == t
    · simp [tablesList, containsStr, hp]
    · rw [if_neg hp] at h
      simp only [tablesList, List.map_cons, containsStr, Bool.or_eq_true]
      exact Or.inr (ih h)

theorem dbLookup_eq_none {db : DB} {t : String}
    (h : containsStr (tablesList db) t = false) : dbLookup db t = none := by
  induction db with
  | nil => rfl
  | cons p rest ih =>
    simp only [tablesList, List.map_cons, containsStr, Bool.or_eq_false_iff] at h
    simp only [dbLookup, h.1, if_false]
    exact ih h.2

theorem dbLookup_setTable_self {db : DB} {t : String} {x tbl : Table}
    (h : dbLookup db t = some x) :
    dbLookup (setTable db t tbl) t = some tbl := by
  induction db with
  | nil => cases h
  | cons p rest ih =>
    simp only [dbLookup] at h
    by_cases hp : p.1 == t
    · simp [setTable, hp, dbLookup]
    · rw [if_neg hp] at h
      have hb : (p.1 == t) = false := by simpa using hp
      simp [setTable, hb, dbLookup, ih h]

theorem dbLookup_setTable_ne {db : DB} {t t2 : String} {tbl : Table}
    (h : t2 ≠ t) : dbLookup (setTable db t tbl) t2 = dbLookup db t2 := by
  induction db with
  | nil => rfl
  | cons p rest ih =>
    by_cases hp : p.1 == t
    · have hpt : p.1 = t := by simpa using hp
      have : (p.1 == t2) = false := by
        simp only [beq_eq_false_iff_ne, ne_eq, hpt]
        exact fun hh => h hh.symm
      simp [setTable, hp, dbLookup, this, ih]
    · simp [setTable, hp, dbLookup, ih]

theorem tablesList_setTable {db : DB} {t : String} {tbl : Table} :
    tablesList (setTable db t tbl) = tablesList db := by
  induction db with
  | nil => rfl
  | cons p rest ih =>
    by_cases hp : p.1 == t
    · have hpt : p.1 = t := by simpa using hp
      simp [setTable, hp, tablesList, hpt] at ih ⊢
      exact ih
    · simp [setTable, hp, tablesList] at ih ⊢
      exact ih

theorem guardDiags_of_lookup {db : DB} {t : String} {x : Table}
    (h : dbLookup db t = some x) : guardDiags db t = [] := by
  simp [guardDiags, containsStr_tablesList h]

theorem guardDiags_missing {db : DB} {t : String} (ht : t ≠ "")
    (h : containsStr (tablesList db) t = false) :
    guardDiags db t = [.tableDoesNotExist t] := by
  have : (t == "") = false := by simpa using ht
  simp [guardDiags, this, h]

theorem lookupVal_of_mem_nodup {data : List (String × Value)} {k : String} {v : Value}
    (hmem : (k, v) ∈ data) (hnd : (data.map Prod.fst).Nodup) :
    lookupVal data k = some v := by
  induction data with
  | nil => cases hmem
  | cons p rest ih =>
    simp only [List.map_cons, List.nodup_cons] at hnd
    rcases List.mem_cons.mp hmem with h | h
    · subst h; simp [lookupVal]
    · have hk : k ∈ rest.map Prod.fst := List.mem_map.mpr ⟨(k, v), h, rfl⟩
      have hne : (p.1 == k) = false := by
        simp only [beq_eq_false_iff_ne, ne_eq]
        intro he; exact hnd.1 (he ▸ hk)
      simp only [lookupVal, hne, if_false]
      exact ih h hnd.2

theorem decide_filter_pos {α : Type} (p : α → Bool) (l : List α) :
    decide (0 < (l.filter p).length) = l.any p := by
  induction l with
  | nil => simp
  | cons a l ih =>
    by_cases h : p a
    · simp [List.filter_cons, h]
    · simp only [Bool.not_eq_true] at h
      simp [List.filter_cons, h, ih]

theorem normalizeRow_map {s : List ColumnDef} {f : ColumnDef → Value} :
    normalizeRow s (s.map f) = s.map f := by
  induction s with
  | nil => rfl
  | cons c cs ih => simp [normalizeRow, List.map_cons, ih]

theorem map_rowCol_schemaNames {s : List ColumnDef} {r : Row}
    (hnd : (schemaNames s).Nodup) :
    (schemaNames s).map (rowCol s r) = normalizeRow s r := by
  induction s generalizing r with
  | nil => rfl
  | cons c cs ih =>
    rw [show schemaNames (c :: cs) = c.name :: schemaNames cs from rfl] at hnd ⊢
    have hnd1 : c.name ∉ schemaNames cs := (List.nodup_cons.mp hnd).1
    have hnd2 : (schemaNames cs).Nodup := (List.nodup_cons.mp hnd).2
    have hhead : rowCol (c :: cs) r c.name = r.headD .nullV := by
      simp [rowCol]
    have htail : (schemaNames cs).map (rowCol (c :: cs) r)
        = (schemaNames cs).map (rowCol cs r.tail) := by
      apply List.map_congr_left
      intro k hk
      have hne : (c.name == k) = false := by
        simp only [beq_eq_false_iff_ne, ne_eq]
        intro he; exact hnd1 (he ▸ hk)
      simp [rowCol, hne]
    rw [List.map_cons, hhead, htail, ih hnd2]
    rfl

theorem projectRow_none (s : List ColumnDef) : projectRow s none = normalizeRow s := by
  funext r; rfl

theorem rowCol_overwrite {s : List ColumnDef} {values : List (String × Value)}
    {r : Row} {k : String} {v : Value} (hk : k ∈ schemaNames s)
    (hv : lookupVal values k = some v) :
    rowCol s (overwrite s values r) k = v := by
  induction s generalizing r with
  | nil => cases hk
  | cons c cs ih =>
    by_cases hc : c.name == k
    · have hck : c.name = k := by simpa using hc
      subst hck
      simp [rowCol, overwrite, hv]
    · simp only [schemaNames, List.map_cons, List.mem_cons] at hk
      rcases hk with hk | hk
      · exact absurd (by simpa using hk.symm) (by simpa using hc)
      · simp only [rowCol, overwrite, hc, if_false, List.tail_cons]
        exact ih hk

theorem rawInsert_ok_inv {db db2 : DB} {t : String} {data : List (String × Value)}
    {n : Int} {tbl : Table} (h : dbLookup db t = some tbl)
    (hok : rawInsert db t data = .ok (db2, n)) :
    data ≠ [] ∧ (data.all fun p => containsStr (schemaNames tbl.schema) p.1) = true
    ∧ insertRowid tbl data = .ok n
    ∧ notNullOk tbl.schema (buildRow tbl.schema data n) = true
    ∧ uniqueOkRow tbl.schema tbl.rows (buildRow tbl.schema data n) = true
    ∧ db2 = setTable db t ⟨tbl.schema, tbl.rows ++ [buildRow tbl.schema data n]⟩ := by
  simp only [rawInsert, h] at hok
  by_cases h1 : data = []
  · rw [if_pos h1] at hok; simp at hok
  rw [if_neg h1] at hok
  cases h2 : (data.all fun p => containsStr (schemaNames tbl.schema) p.1) with
  | false => rw [h2] at hok; simp at hok
  | true =>
    rw [h2] at hok
    simp only [Bool.not_true, Bool.false_eq_true, if_false] at hok
    cases h3 : insertRowid tbl data with
    | error e => rw [h3] at hok; simp at hok
    | ok rid =>
      rw [h3] at hok
      dsimp only at hok
      cases h4 : notNullOk tbl.schema (buildRow tbl.schema data rid) with
      | false => rw [h4] at hok; simp at hok
      | true =>
        rw [h4] at hok
        simp only [Bool.not_true, Bool.false_eq_true, if_false] at hok
        cases h5 : uniqueOkRow tbl.schema tbl.rows (buildRow tbl.schema data rid) with
        | false => rw [h5] at hok; simp at hok
        | true =>
          rw [h5] at hok
          simp only [Bool.not_true, Bool.false_eq_true, if_false,
            Except.ok.injEq, Prod.mk.injEq] at hok
          obtain ⟨hdb, hn⟩ := hok
          subst hn
          exact ⟨h1, rfl, rfl, h4, h5, hdb.symm⟩

theorem rawUpdate_ok_inv {db db2 : DB} {t : String} {values : List (String × Value)}
    {cond : Pred} {b : Bool} {tbl : Table} (h : dbLookup db t = some tbl)
    (hok : rawUpdate db t values cond = .ok (db2, b)) :
    values ≠ [] ∧ (values.all fun p => containsStr (schemaNames tbl.schema) p.1) = true
    ∧ predOk tbl.schema cond = true
    ∧ db2 = setTable db t ⟨tbl.schema, tbl.rows.map fun r =>
        if rowMatches tbl.schema cond r then overwrite tbl.schema values r else r⟩
    ∧ b = decide (0 < (tbl.rows.filter (rowMatches tbl.schema cond)).length) := by
  simp only [rawUpdate, h] at hok
  by_cases h1 : values = []
  · rw [if_pos h1] at hok; simp at hok
  rw [if_neg h1] at hok
  cases h2 : (values.all fun p => containsStr (schemaNames tbl.schema) p.1) with
  | false => rw [h2] at hok; simp at hok
  | true =>
    rw [h2] at hok
    simp only [Bool.not_true, Bool.false_eq_true, if_false] at hok
    cases h3 : predOk tbl.schema cond with
    | false => rw [h3] at hok; simp at hok
    | true =>
      rw [h3] at hok
      simp only [Bool.not_true, Bool.false_eq_true, if_false] at hok
      cases h4 : (tbl.rows.all fun r => !(rowMatches tbl.schema cond r)
          || notNullOk tbl.schema (overwrite tbl.schema values r)) with
      | false => rw [h4] at hok; simp at hok
      | true =>
        rw [h4] at hok
        simp only [Bool.not_true, Bool.false_eq_true, if_false] at hok
        cases h5 : uniqueColsAllOk tbl.schema (tbl.rows.map fun r =>
            if rowMatches tbl.schema cond r then overwrite tbl.schema values r else r) with
        | false => rw [h5] at hok; simp at hok
        | true =>
          rw [h5] at hok
          simp only [Bool.not_true, Bool.false_eq_true, if_false,
            Except.ok.injEq, Prod.mk.injEq] at hok
          exact ⟨h1, rfl, rfl, hok.1.symm, hok.2.symm⟩

theorem rawSelect_one_eq (db : DB) (t : String) (tbl : Table) (cond : Pred)
    (lim : Option Int) (h : dbLookup db t = some tbl)
    (hp : predOk tbl.schema cond = true) :
    rawSelect db t none cond .fetchOne lim
      = .ok (db, .one (((tbl.rows.filter (rowMatches tbl.schema cond)).map
          (normalizeRow tbl.schema)).head?)) := by
  simp only [rawSelect, h, hp, Bool.not_true, Bool.false_eq_true, if_false,
    projectRow_none]
  rw [show colsOk tbl.schema none = true from rfl]
  simp

theorem rowCol_pw (v0 v1 v2 v3 v4 v5 : Value) :
    rowCol passwordsColumns [v0, v1, v2, v3, v4, v5] "id" = v0
    ∧ rowCol passwordsColumns [v0, v1, v2, v3, v4, v5] "name" = v1
    ∧ rowCol passwordsColumns [v0, v1, v2, v3, v4, v5] "website" = v2
    ∧ rowCol passwordsColumns [v0, v1, v2, v3, v4, v5] "username" = v3
    ∧ rowCol passwordsColumns [v0, v1, v2, v3, v4, v5] "password" = v4
    ∧ rowCol passwordsColumns [v0, v1, v2, v3, v4, v5] "note" = v5 := by
  refine ⟨?_, ?_, ?_, ?_, ?_, ?_⟩ <;> rfl

theorem uniqueOkRow_head {c : ColumnDef} {cs : List ColumnDef} {rows : List Row}
    {nr : Row} (hu : uniqueOkRow (c :: cs) rows nr = true)
    (hc : (c.isPK || c.isUnique) = true)
    (hnn : (nr.headD .nullV == Value.nullV) = false) :
    rows.all (fun r => !(r.headD .nullV == nr.headD .nullV)) = true := by
  simp only [uniqueOkRow, Bool.and_eq_true] at hu
  have h1 := hu.1
  rw [hc] at h1
  simp only [Bool.not_true, Bool.false_or] at h1
  rw [hnn] at h1
  simpa using h1

theorem buildRow_pw (data : List (String × Value)) (rid : Int) :
    buildRow passwordsColumns data rid
      = [Value.intV rid,
         (lookupVal data "name").getD .nullV,
         (lookupVal data "website").getD .nullV,
         (lookupVal data "username").getD .nullV,
         (lookupVal data "password").getD .nullV,
         (lookupVal data "note").getD .nullV] := by
  have h0 : ColumnDef.isPK ⟨"id", "INTEGER", ["PRIMARY", "KEY"]⟩ = true := by decide
  have h1 : ColumnDef.isPK ⟨"name", "TEXT", ["NOT NULL"]⟩ = false := by decide
  have h2 : ColumnDef.isPK ⟨"website", "TEXT", ["NOT NULL"]⟩ = false := by decide
  have h3 : ColumnDef.isPK ⟨"username", "TEXT", []⟩ = false := by decide
  have h4 : ColumnDef.isPK ⟨"password", "TEXT", ["NOT NULL"]⟩ = false := by decide
  have h5 : ColumnDef.isPK ⟨"note", "TEXT", []⟩ = false := by decide
  simp [buildRow, passwordsColumns, insertCell, h0, h1, h2, h3, h4, h5]

theorem insertRowid_pw {rows : List Row} {data : List (String × Value)} {n : Int}
    (hok : insertRowid ⟨passwordsColumns, rows⟩ data = .ok n)
    (hid : lookupVal data "id" ≠ some Value.nullV) :
    lookupVal data "id" = some (Value.intV n) ∨ lookupVal data "id" = none := by
  have hpn : pkName passwordsColumns = some "id" := by decide
  simp only [insertRowid] at hok
  rw [hpn] at hok
  dsimp only at hok
  cases hlv : lookupVal data "id" with
  | none => exact Or.inr rfl
  | some v =>
    rw [hlv] at hok
    cases v with
    | intV m =>
      dsimp only at hok
      left
      simp only [Except.ok.injEq] at hok
      rw [hok]
    | strV s => dsimp only at hok; cases hok
    | nullV => exact absurd hlv hid

theorem rowMatches_pw_id (n : Int) (r : Row) :
    rowMatches passwordsColumns (some [("id", Value.intV n)]) r
      = (r.headD .nullV == Value.intV n) := by
  simp only [rowMatches, List.all_cons, List.all_nil, Bool.and_true]
  rw [show rowCol passwordsColumns r "id" = r.headD .nullV from rfl]

theorem predOk_pw_id (n : Int) :
    predOk passwordsColumns (some [("id", Value.intV n)]) = true := by
  simp only [predOk, List.all_cons, List.all_nil, Bool.and_true]
  decide

end Lemmas

/-- C1 counterexample: a record that satisfies every NOT NULL
constraint of the `passwords` schema but supplies an explicit NULL for
the primary-key column `id`.  The insert succeeds — the backend
replaces the NULL id by the auto-assigned identity 1 — and the
subsequent fetch-one select on that identity returns a record whose
`id` cell is the integer 1, not the supplied NULL: the returned record
differs from the inserted one on the supplied column `id`. -/
theorem c1_counterexample :
    Database.insert [("passwords", ⟨passwordsColumns, []⟩)] "passwords"
        [("name", Value.strV "a"), ("website", Value.strV "b"),
         ("password", Value.strV "c"), ("id", Value.nullV)]
      = ([("passwords", ⟨passwordsColumns,
            [[Value.intV 1, Value.strV "a", Value.strV "b", Value.nullV,
              Value.strV "c", Value.nullV]]⟩)], [], .ok 1)
    ∧ Database.select
        [("passwords", ⟨passwordsColumns,
          [[Value.intV 1, Value.strV "a", Value.strV "b", Value.nullV,
            Value.strV "c", Value.nullV]]⟩)]
        "passwords" none (some [("id", Value.intV 1)]) .fetchOne none
      = ([("passwords", ⟨passwordsColumns,
            [[Value.intV 1, Value.strV "a", Value.strV "b", Value.nullV,
              Value.strV "c", Value.nullV]]⟩)], [],
         .ok (.one (some [Value.intV 1, Value.strV "a", Value.strV "b", Value.nullV,
            Value.strV "c", Value.nullV])))
    ∧ rowCol passwordsColumns
        [Value.intV 1, Value.strV "a", Value.strV "b", Value.nullV,
          Value.strV "c", Value.nullV] "id" = Value.intV 1
    ∧ lookupVal
        [("name", Value.strV "a"), ("website", Value.strV "b"),
         ("password", Value.strV "c"), ("id", Value.nullV)] "id" = some Value.nullV
    ∧ Value.intV 1 ≠ Value.nullV := by
  exact ⟨by decide, by decide, by decide, by decide, by decide⟩

/-- C1 (corrected): round-trip, for records that do not supply a NULL
primary key.  For every state of the `passwords` table and every
record (a dictionary over the schema's columns) whose `id` entry, if
present, is not NULL: if `insert` succeeds with identity `n`, then
`select` with predicate `{id: n}` in fetch-one mode returns a record
that agrees with the inserted record on every supplied column.  (The
counterexample shows the restriction is necessary: a supplied NULL
`id` is replaced by the auto-assigned identity.) -/
theorem c1_roundtrip_amended (db db2 : DB) (ds : List Diag) (rows : List Row)
    (data : List (String × Value)) (n : Int)
    (h : dbLookup db "passwords" = some ⟨passwordsColumns, rows⟩)
    (hnd : (data.map Prod.fst).Nodup)
    (hid : lookupVal data "id" ≠ some Value.nullV)
    (hins : Database.insert db "passwords" data = (db2, ds, .ok n)) :
    ∃ r : Row,
      Database.select db2 "passwords" none (some [("id", Value.intV n)]) .fetchOne none
        = (db2, [], .ok (.one (some r)))
      ∧ ∀ p ∈ data, rowCol passwordsColumns r p.1 = p.2 := by
  have hsplit : (errorWrap (fun d => rawInsert d "passwords" data) db).1 = db2
      ∧ (errorWrap (fun d => rawInsert d "passwords" data) db).2 = .ok n := by
    have hq1 := congrArg Prod.fst hins
    have hq2 := congrArg (fun q => q.2.2) hins
    exact ⟨hq1, hq2⟩
  have hew : errorWrap (fun d => rawInsert d "passwords" data) db = (db2, .ok n) := by
    rw [Prod.ext_iff]
    exact hsplit
  have hraw : rawInsert db "passwords" data = .ok (db2, n) := errorWrap_eq_ok.mp hew
  obtain ⟨hne, hkeys, hrowid, hnn, huniq, hdb2⟩ := rawInsert_ok_inv h hraw
  have hnr := buildRow_pw data n
  have hidinfo := insertRowid_pw hrowid hid
  have h2 : dbLookup db2 "passwords"
      = some ⟨passwordsColumns, rows ++ [buildRow passwordsColumns data n]⟩ := by
    rw [hdb2]
    exact dbLookup_setTable_self h
  have hg2 : guardDiags db2 "passwords" = [] := guardDiags_of_lookup h2
  have hnnq : ((buildRow passwordsColumns data n).headD .nullV == Value.nullV) = false := by
    rw [hnr]
    simp only [List.headD_cons]
    exact beq_eq_false_iff_ne.mpr (fun hq => Value.noConfusion hq)
  have hfresh : rows.all (fun r =>
      !(r.headD .nullV == (buildRow passwordsColumns data n).headD .nullV)) = true := by
    rw [show passwordsColumns
        = (⟨"id", "INTEGER", ["PRIMARY", "KEY"]⟩ : ColumnDef) ::
          [⟨"name", "TEXT", ["NOT NULL"]⟩, ⟨"website", "TEXT", ["NOT NULL"]⟩,
           ⟨"username", "TEXT", []⟩, ⟨"password", "TEXT", ["NOT NULL"]⟩,
           ⟨"note", "TEXT", []⟩] from rfl] at huniq
    exact uniqueOkRow_head huniq (by decide) hnnq
  have hfresh2 : rows.all (fun r => !(r.headD .nullV == Value.intV n)) = true := by
    rw [List.all_eq_true] at hfresh ⊢
    intro r hr
    have := hfresh r hr
    rw [hnr] at this
    simpa using this
  have hmnew : rowMatches passwordsColumns (some [("id", Value.intV n)])
      (buildRow passwordsColumns data n) = true := by
    rw [rowMatches_pw_id, hnr]
    simp
  have hfilter : ((rows ++ [buildRow passwordsColumns data n]).filter
      (rowMatches passwordsColumns (some [("id", Value.intV n)])))
      = [buildRow passwordsColumns data n] := by
    rw [List.filter_append]
    have hnil : rows.filter (rowMatches passwordsColumns (some [("id", Value.intV n)]))
        = [] := by
      rw [List.filter_eq_nil_iff]
      intro r hr
      rw [rowMatches_pw_id]
      have hx := List.all_eq_true.mp hfresh2 r hr
      intro hcontra
      rw [hcontra] at hx
      cases hx
    rw [hnil]
    simp [List.filter_cons, hmnew]
  refine ⟨buildRow passwordsColumns data n, ?_, ?_⟩
  · have hrawsel := rawSelect_one_eq db2 "passwords"
      ⟨passwordsColumns, rows ++ [buildRow passwordsColumns data n]⟩
      (some [("id", Value.intV n)]) none h2 (predOk_pw_id n)
    rw [show (⟨passwordsColumns, rows ++ [buildRow passwordsColumns data n]⟩ : Table).rows
        = rows ++ [buildRow passwordsColumns data n] from rfl] at hrawsel
    rw [show (⟨passwordsColumns, rows ++ [buildRow passwordsColumns data n]⟩ : Table).schema
        = passwordsColumns from rfl] at hrawsel
    rw [hfilter] at hrawsel
    have hnorm : normalizeRow passwordsColumns (buildRow passwordsColumns data n)
        = buildRow passwordsColumns data n := normalizeRow_map
    rw [List.map_cons, List.map_nil, hnorm] at hrawsel
    simp only [Database.select, errorWrap, hrawsel, hg2]
    rfl
  · intro p hp2
    have hlk : lookupVal data p.1 = some p.2 := lookupVal_of_mem_nodup hp2 hnd
    have hk : p.1 ∈ schemaNames passwordsColumns :=
      containsStr_iff.mp (List.all_eq_true.mp hkeys p hp2)
    have hk6 : p.1 = "id" ∨ p.1 = "name" ∨ p.1 = "website" ∨ p.1 = "username"
        ∨ p.1 = "password" ∨ p.1 = "note" := by
      simpa [schemaNames, passwordsColumns] using hk
    rcases hk6 with h6 | h6 | h6 | h6 | h6 | h6
    · rw [h6] at hlk ⊢
      rw [hnr, (rowCol_pw _ _ _ _ _ _).1]
      rcases hidinfo with hcase | hcase
      · rw [hcase] at hlk
        simp only [Option.some.injEq] at hlk
        exact hlk
      · rw [hcase] at hlk
        cases hlk
    · rw [h6] at hlk ⊢
      rw [hnr, (rowCol_pw _ _ _ _ _ _).2.1, hlk]
      rfl
    · rw [h6] at hlk ⊢
      rw [hnr, (rowCol_pw _ _ _ _ _ _).2.2.1, hlk]
      rfl
    · rw [h6] at hlk ⊢
      rw [hnr, (rowCol_pw _ _ _ _ _ _).2.2.2.1, hlk]
      rfl
    · rw [h6] at hlk ⊢
      rw [hnr, (rowCol_pw _ _ _ _ _ _).2.2.2.2.1, hlk]
      rfl
    · rw [h6] at hlk ⊢
      rw [hnr, (rowCol_pw _ _ _ _ _ _).2.2.2.2.2, hlk]
      rfl

/-- Witness for C1 (amended): the scenario record from the
specification inserted into an empty `passwords` table receives
identity 1 and round-trips on every supplied column. -/
theorem c1_roundtrip_amended_witness :
    ∃ r : Row,
      Database.select
          [("passwords", ⟨passwordsColumns,
            [[Value.intV 1, Value.strV "GitHub", Value.strV "github.com",
              Value.strV "alice", Value.strV "x1", Value.strV ""]]⟩)]
          "passwords" none (some [("id", Value.intV 1)]) .fetchOne none
        = ([("passwords", ⟨passwordsColumns,
            [[Value.intV 1, Value.strV "GitHub", Value.strV "github.com",
              Value.strV "alice", Value.strV "x1", Value.strV ""]]⟩)], [],
           .ok (.one (some r)))
      ∧ ∀ p ∈ [("name", Value.strV "GitHub"), ("website", Value.strV "github.com"),
          ("username", Value.strV "alice"), ("password", Value.strV "x1"),
          ("note", Value.strV "")],
          rowCol passwordsColumns r p.1 = p.2 := by
  exact c1_roundtrip_amended [("passwords", ⟨passwordsColumns, []⟩)]
    [("passwords", ⟨passwordsColumns,
      [[Value.intV 1, Value.strV "GitHub", Value.strV "github.com",
        Value.strV "alice", Value.strV "x1", Value.strV ""]]⟩)]
    [] []
    [("name", Value.strV "GitHub"), ("website", Value.strV "github.com"),
     ("username", Value.strV "alice"), ("password", Value.strV "x1"),
     ("note", Value.strV "")]
    1 (by decide) (by decide) (by decide) (by decide)

/-- C3 (confirmed): uniform non-throwing failure.  Every public
operation is total with result type `OpResult` — there is no exception
alternative in the public contract — and whenever the underlying
statement raises a backend error (`isErr` of the raw operation), the
operation returns the uniform failure value `False`
(`OpResult.failed`) with the database state unchanged.  `tables`,
`columns` and `unique_columns` never fail: their statements are fixed
or are pragmas that return no rows for a missing table. -/
theorem c3_uniform_nonthrowing (db : DB) (t : String)
    (data values : List (String × Value)) (cols : Option (List String))
    (cond : Pred) (mode : Mode) (lim : Option Int) (cdefs : List ColumnDef) :
    (isErr (rawInsert db t data) = true →
      Database.insert db t data = (db, guardDiags db t, .failed))
    ∧ (isErr (rawSelect db t cols cond mode lim) = true →
      Database.select db t cols cond mode lim = (db, guardDiags db t, .failed))
    ∧ (isErr (rawUpdate db t values cond) = true →
      Database.update db t values cond = (db, guardDiags db t, .failed))
    ∧ (isErr (rawDelete db t cond) = true →
      Database.delete db t cond = (db, guardDiags db t, .failed))
    ∧ (isErr (rawCreate db t cdefs) = true →
      Database.create db t cdefs = (db, .failed))
    ∧ Database.tables db = (db, .ok (tablesList db))
    ∧ (∃ l, Database.columns db t = (db, guardDiags db t, .ok l))
    ∧ (∃ l, Database.unique_columns db t = (db, guardDiags db t, .ok l)) := by
  refine ⟨?_, ?_, ?_, ?_, ?_, rfl, ⟨_, rfl⟩, ⟨_, rfl⟩⟩
  · intro h
    simp only [Database.insert, errorWrap_of_isErr (fun d => rawInsert d t data) db h]
  · intro h
    simp only [Database.select,
      errorWrap_of_isErr (fun d => rawSelect d t cols cond mode lim) db h]
  · intro h
    simp only [Database.update,
      errorWrap_of_isErr (fun d => rawUpdate d t values cond) db h]
  · intro h
    simp only [Database.delete, errorWrap_of_isErr (fun d => rawDelete d t cond) db h]
  · intro h
    simp only [Database.create, errorWrap_of_isErr (fun d => rawCreate d t cdefs) db h]

/-- Witness for C3 at concrete failing statements: each fallible
operation invoked on a missing table (and `create` with an empty,
malformed column list) returns the uniform failure value instead of
raising. -/
theorem c3_uniform_nonthrowing_witness :
    Database.insert [] "t" [("a", Value.intV 1)]
      = ([], [Diag.tableDoesNotExist "t"], .failed)
    ∧ Database.select [] "t" none none .fetchAll none
      = ([], [Diag.tableDoesNotExist "t"], .failed)
    ∧ Database.update [] "t" [("a", Value.intV 1)] none
      = ([], [Diag.tableDoesNotExist "t"], .failed)
    ∧ Database.delete [] "t" none = ([], [Diag.tableDoesNotExist "t"], .failed)
    ∧ Database.create [] "t" [] = ([], .failed) := by
  have h := c3_uniform_nonthrowing [] "t" [("a", Value.intV 1)] [("a", Value.intV 1)]
    none none .fetchAll none []
  exact ⟨(h.1 (by decide)).trans (by decide),
    (h.2.1 (by decide)).trans (by decide),
    (h.2.2.1 (by decide)).trans (by decide),
    (h.2.2.2.1 (by decide)).trans (by decide),
    h.2.2.2.2.1 (by decide)⟩

/-- C4 counterexample: the guard's test is
`if table and table not in self.tables()`, so for the empty (falsy)
table name — which is certainly not in `tables()` — no "table does not
exist" diagnostic is emitted, contradicting the claim that the guard
emits the diagnostic for every table name not in `tables()`.  The call
still produces the uniform failure result. -/
theorem c4_counterexample :
    Database.insert ([] : DB) "" [("a", Value.intV 1)] = ([], [], .failed)
    ∧ containsStr (tablesList ([] : DB)) "" = false := by
  exact ⟨by decide, by decide⟩

/-- C4 (corrected): missing-table guard behaviour, for non-empty table
names.  For every *non-empty* table name absent from the table list,
each table-scoped operation emits the "table does not exist"
diagnostic, still attempts the underlying statement, and produces a
failure (`False`) or empty result rather than an unhandled fault:
`insert`, `select`, `update` and `delete` fail at the backend ("no
such table"), while `columns` and `unique_columns` succeed with an
empty listing because `PRAGMA table_info` returns no rows. -/
theorem c4_missing_table_guard (db : DB) (t : String)
    (data values : List (String × Value)) (cols : Option (List String))
    (cond : Pred) (mode : Mode) (lim : Option Int)
    (ht : t ≠ "") (hm : containsStr (tablesList db) t = false) :
    Database.insert db t data = (db, [.tableDoesNotExist t], .failed)
    ∧ Database.select db t cols cond mode lim = (db, [.tableDoesNotExist t], .failed)
    ∧ Database.update db t values cond = (db, [.tableDoesNotExist t], .failed)
    ∧ Database.delete db t cond = (db, [.tableDoesNotExist t], .failed)
    ∧ Database.columns db t = (db, [.tableDoesNotExist t], .ok [])
    ∧ Database.unique_columns db t = (db, [.tableDoesNotExist t], .ok []) := by
  have hl : dbLookup db t = none := dbLookup_eq_none hm
  have hg : guardDiags db t = [.tableDoesNotExist t] := guardDiags_missing ht hm
  refine ⟨?_, ?_, ?_, ?_, ?_, ?_⟩
  · rw [show Database.insert db t data
        = ((errorWrap (fun d => rawInsert d t data) db).1, guardDiags db t,
           (errorWrap (fun d => rawInsert d t data) db).2) from rfl,
      errorWrap_of_isErr (fun d => rawInsert d t data) db (by simp [rawInsert, hl, isErr]),
      hg]
  · rw [show Database.select db t cols cond mode lim
        = ((errorWrap (fun d => rawSelect d t cols cond mode lim) db).1, guardDiags db t,
           (errorWrap (fun d => rawSelect d t cols cond mode lim) db).2) from rfl,
      errorWrap_of_isErr (fun d => rawSelect d t cols cond mode lim) db
        (by simp [rawSelect, hl, isErr]),
      hg]
  · rw [show Database.update db t values cond
        = ((errorWrap (fun d => rawUpdate d t values cond) db).1, guardDiags db t,
           (errorWrap (fun d => rawUpdate d t values cond) db).2) from rfl,
      errorWrap_of_isErr (fun d => rawUpdate d t values cond) db
        (by simp [rawUpdate, hl, isErr]),
      hg]
  · rw [show Database.delete db t cond
        = ((errorWrap (fun d => rawDelete d t cond) db).1, guardDiags db t,
           (errorWrap (fun d => rawDelete d t cond) db).2) from rfl,
      errorWrap_of_isErr (fun d => rawDelete d t cond) db
        (by simp [rawDelete, hl, isErr]),
      hg]
  · simp [Database.columns, errorWrap, rawColumns, hl, hg]
  · simp [Database.unique_columns, errorWrap, rawUniqueColumns, hl, hg]

/-- Witness for C4 (amended) at a concrete non-empty missing table
name. -/
theorem c4_missing_table_guard_witness :
    Database.insert ([] : DB) "missing" []
      = ([], [Diag.tableDoesNotExist "missing"], .failed)
    ∧ Database.columns ([] : DB) "missing"
      = ([], [Diag.tableDoesNotExist "missing"], .ok []) := by
  have h := c4_missing_table_guard [] "missing" [] [] none none Mode.fetchAll none
    (by decide) (by decide)
  exact ⟨h.1, h.2.2.2.2.1⟩

/-- C5 (confirmed): delete boolean contract.  For every existing table
and every equality predicate over its columns, `delete` keeps exactly
the non-matching rows (in order), leaves every other table untouched,
and returns `rowcount > 0`: `false` when the predicate matches zero
rows and `true` when it matches at least one. -/
theorem c5_delete_contract (db : DB) (t : String) (tbl : Table) (cond : Pred)
    (h : dbLookup db t = some tbl) (hp : predOk tbl.schema cond = true) :
    Database.delete db t cond =
      (setTable db t ⟨tbl.schema, tbl.rows.filter fun r => !(rowMatches tbl.schema cond r)⟩,
        [], .ok (tbl.rows.any (rowMatches tbl.schema cond)))
    ∧ (tbl.rows.any (rowMatches tbl.schema cond) = true ↔
        ∃ r ∈ tbl.rows, rowMatches tbl.schema cond r = true)
    ∧ (∀ t2, t2 ≠ t → dbLookup (Database.delete db t cond).1 t2 = dbLookup db t2) := by
  have hg : guardDiags db t = [] := guardDiags_of_lookup h
  have hraw : rawDelete db t cond
      = .ok (setTable db t ⟨tbl.schema, tbl.rows.filter fun r => !(rowMatches tbl.schema cond r)⟩,
          decide (0 < (tbl.rows.filter (rowMatches tbl.schema cond)).length)) := by
    simp [rawDelete, h, hp]
  have hdel : Database.delete db t cond
      = (setTable db t ⟨tbl.schema, tbl.rows.filter fun r => !(rowMatches tbl.schema cond r)⟩,
         [], .ok (tbl.rows.any (rowMatches tbl.schema cond))) := by
    rw [show Database.delete db t cond
        = ((errorWrap (fun d => rawDelete d t cond) db).1, guardDiags db t,
           (errorWrap (fun d => rawDelete d t cond) db).2) from rfl]
    rw [show errorWrap (fun d => rawDelete d t cond) db
        = (setTable db t ⟨tbl.schema, tbl.rows.filter fun r => !(rowMatches tbl.schema cond r)⟩,
           .ok (decide (0 < (tbl.rows.filter (rowMatches tbl.schema cond)).length)))
      from by simp [errorWrap, hraw]]
    rw [hg, decide_filter_pos]
  refine ⟨hdel, List.any_eq_true, ?_⟩
  intro t2 ht2
  rw [hdel]
  exact dbLookup_setTable_ne ht2

/-- Witness for C5 on a concrete table: a matching predicate returns
`true` and removes exactly the matched row; a non-matching predicate
returns `false` and removes nothing. -/
theorem c5_delete_contract_witness :
    Database.delete [("t", ⟨[⟨"a", "TEXT", []⟩], [[Value.strV "x"], [Value.strV "y"]]⟩)]
        "t" (some [("a", Value.strV "x")])
      = ([("t", ⟨[⟨"a", "TEXT", []⟩], [[Value.strV "y"]]⟩)], [], .ok true)
    ∧ Database.delete [("t", ⟨[⟨"a", "TEXT", []⟩], [[Value.strV "x"], [Value.strV "y"]]⟩)]
        "t" (some [("a", Value.strV "z")])
      = ([("t", ⟨[⟨"a", "TEXT", []⟩], [[Value.strV "x"], [Value.strV "y"]]⟩)], [], .ok false) := by
  have h1 := c5_delete_contract
    [("t", ⟨[⟨"a", "TEXT", []⟩], [[Value.strV "x"], [Value.strV "y"]]⟩)] "t"
    ⟨[⟨"a", "TEXT", []⟩], [[Value.strV "x"], [Value.strV "y"]]⟩
    (some [("a", Value.strV "x")]) (by decide) (by decide)
  have h2 := c5_delete_contract
    [("t", ⟨[⟨"a", "TEXT", []⟩], [[Value.strV "x"], [Value.strV "y"]]⟩)] "t"
    ⟨[⟨"a", "TEXT", []⟩], [[Value.strV "x"], [Value.strV "y"]]⟩
    (some [("a", Value.strV "z")]) (by decide) (by decide)
  exact ⟨h1.1.trans (by decide), h2.1.trans (by decide)⟩

/-- `PRAGMA table_info` filtered on field 5 and projected to field 1
is exactly the primary-key column names. -/
theorem tableInfoAux_pk_names (i : Nat) (s : List ColumnDef) :
    ((tableInfoAux i s).filter fun r => r.pk == 1).map TableInfoRow.name
      = (s.filter ColumnDef.isPK).map ColumnDef.name := by
  induction s generalizing i with
  | nil => rfl
  | cons c cs ih =>
    by_cases hc : c.isPK
    · simp [tableInfoAux, List.filter_cons, hc, ih]
    · have hc' : c.isPK = false := by simpa using hc
      simp [tableInfoAux, List.filter_cons, hc', ih]

/-- C8 counterexample: a table whose column `u` carries an explicit
UNIQUE constraint (and whose `id` carries none, only PRIMARY KEY).
`unique_columns` filters `PRAGMA table_info` on field 5 — the
primary-key flag — so it returns `["id"]`: the explicitly
UNIQUE-constrained column `u` is missing from the result, refuting the
claim that the operation returns the columns carrying a uniqueness
constraint. -/
theorem c8_counterexample :
    Database.unique_columns
        [("t", ⟨[⟨"id", "INTEGER", ["PRIMARY", "KEY"]⟩, ⟨"u", "TEXT", ["UNIQUE"]⟩], []⟩)] "t"
      = ([("t", ⟨[⟨"id", "INTEGER", ["PRIMARY", "KEY"]⟩, ⟨"u", "TEXT", ["UNIQUE"]⟩], []⟩)],
         [], .ok ["id"])
    ∧ ColumnDef.isUnique ⟨"u", "TEXT", ["UNIQUE"]⟩ = true
    ∧ ¬("u" ∈ (["id"] : List String))
    ∧ ColumnDef.isUnique ⟨"id", "INTEGER", ["PRIMARY", "KEY"]⟩ = false := by
  exact ⟨by decide, by decide, by decide, by decide⟩

/-- C8 (corrected): `unique_columns` returns the names of the columns
flagged as primary key by `PRAGMA table_info` (field 5), not the
explicitly UNIQUE-constrained columns.  In particular, for the
`passwords` table (whose only such column is `id`) it returns exactly
`["id"]`, which indeed contains none of `name`, `website`, `username`,
`password`, `note` — the export layer relies on this to exclude `id`
from CSV headers. -/
theorem c8_unique_columns_amended (db : DB) (t : String) (tbl : Table)
    (h : dbLookup db t = some tbl) :
    Database.unique_columns db t
      = (db, [], .ok ((tbl.schema.filter ColumnDef.isPK).map ColumnDef.name))
    ∧ (∀ rows2, dbLookup db "passwords" = some ⟨passwordsColumns, rows2⟩ →
        Database.unique_columns db "passwords" = (db, [], .ok ["id"])
        ∧ ¬("name" ∈ (["id"] : List String))
        ∧ ¬("website" ∈ (["id"] : List String))
        ∧ ¬("username" ∈ (["id"] : List String))
        ∧ ¬("password" ∈ (["id"] : List String))
        ∧ ¬("note" ∈ (["id"] : List String))) := by
  have hgen : ∀ (t0 : String) (tbl0 : Table), dbLookup db t0 = some tbl0 →
      Database.unique_columns db t0
        = (db, [], .ok ((tbl0.schema.filter ColumnDef.isPK).map ColumnDef.name)) := by
    intro t0 tbl0 h0
    have hg : guardDiags db t0 = [] := guardDiags_of_lookup h0
    simp [Database.unique_columns, errorWrap, rawUniqueColumns, h0, hg, tableInfo,
      tableInfoAux_pk_names]
  refine ⟨hgen t tbl h, ?_⟩
  intro rows2 h2
  refine ⟨?_, by decide, by decide, by decide, by decide, by decide⟩
  rw [hgen "passwords" ⟨passwordsColumns, rows2⟩ h2]
  have : ((⟨passwordsColumns, rows2⟩ : Table).schema.filter ColumnDef.isPK).map
      ColumnDef.name = ["id"] := by
    show (passwordsColumns.filter ColumnDef.isPK).map ColumnDef.name = ["id"]
    decide
  rw [this]

/-- Witness for C8 (amended) on a concrete database holding the
`passwords` table. -/
theorem c8_unique_columns_amended_witness :
    Database.unique_columns [("passwords", ⟨passwordsColumns, []⟩)] "passwords"
      = ([("passwords", ⟨passwordsColumns, []⟩)], [], .ok ["id"]) := by
  have h := c8_unique_columns_amended [("passwords", ⟨passwordsColumns, []⟩)]
    "passwords" ⟨passwordsColumns, []⟩ (by decide)
  exact (h.2 [] (by decide)).1

/-- C9 counterexample: `select` guards the LIMIT clause with
`if limit and mode == "fetch-all"`, so the falsy limit `0` is dropped:
a fetch-all select with `limit = 0` on a one-row table returns that
row — the result count (1) is not restricted to the given limit (0),
refuting the claim that the limit parameter restricts the result count
in fetch-all mode. -/
theorem c9_counterexample :
    Database.select [("t", ⟨[⟨"a", "TEXT", []⟩], [[Value.strV "x"]]⟩)] "t"
        none none .fetchAll (some 0)
      = ([("t", ⟨[⟨"a", "TEXT", []⟩], [[Value.strV "x"]]⟩)], [],
         .ok (.many [[Value.strV "x"]]))
    ∧ ¬(([[Value.strV "x"]] : List Row).length ≤ 0) := by
  exact ⟨by decide, by decide⟩

/-- C9 (corrected): select contract.  For an existing table with
distinct column names and a valid predicate: an absent column list
projects all columns in schema creation order (selecting `None` equals
selecting the full schema-order column list); the limit parameter is
ignored in fetch-one mode; fetch-one returns at most a single record
(the first match) or an explicit absence; a *positive* limit restricts
the result count in fetch-all mode (a zero or negative limit is
treated as absent, per the counterexample); and fetch-all without a
limit returns the possibly empty list of matching rows in stored
(insertion) order. -/
theorem c9_select_contract (db : DB) (t : String) (tbl : Table) (cond : Pred)
    (cols : Option (List String)) (mode : Mode) (lim : Option Int)
    (h : dbLookup db t = some tbl) (hp : predOk tbl.schema cond = true)
    (hnd : (schemaNames tbl.schema).Nodup) :
    (Database.select db t none cond mode lim
      = Database.select db t (some (schemaNames tbl.schema)) cond mode lim)
    ∧ (Database.select db t cols cond .fetchOne lim
        = Database.select db t cols cond .fetchOne none)
    ∧ (Database.select db t none cond .fetchOne lim
        = (db, [], .ok (.one (((tbl.rows.filter (rowMatches tbl.schema cond)).map
            (normalizeRow tbl.schema)).head?))))
    ∧ (∀ k : Int, 0 < k →
        Database.select db t none cond .fetchAll (some k)
          = (db, [], .ok (.many (((tbl.rows.filter (rowMatches tbl.schema cond)).map
              (normalizeRow tbl.schema)).take k.toNat)))
        ∧ (((tbl.rows.filter (rowMatches tbl.schema cond)).map
            (normalizeRow tbl.schema)).take k.toNat).length ≤ k.toNat)
    ∧ (Database.select db t none cond .fetchAll none
        = (db, [], .ok (.many ((tbl.rows.filter (rowMatches tbl.schema cond)).map
            (normalizeRow tbl.schema))))) := by
  have hg : guardDiags db t = [] := guardDiags_of_lookup h
  have hproj : ∀ r : Row, projectRow tbl.schema (some (schemaNames tbl.schema)) r
      = normalizeRow tbl.schema r := by
    intro r
    cases hsn : schemaNames tbl.schema with
    | nil =>
      have hs : tbl.schema = [] := by
        cases hsch : tbl.schema with
        | nil => rfl
        | cons c cs => rw [hsch] at hsn; cases hsn
      rw [hs]; rfl
    | cons a l =>
      show (a :: l).map (rowCol tbl.schema r) = normalizeRow tbl.schema r
      rw [← hsn]
      exact map_rowCol_schemaNames hnd
  have hcolsOk : colsOk tbl.schema (some (schemaNames tbl.schema)) = true := by
    cases hsn : schemaNames tbl.schema with
    | nil => rfl
    | cons a l =>
      show (a :: l).all (fun k => containsStr (schemaNames tbl.schema) k) = true
      rw [List.all_eq_true]
      intro k hk
      rw [containsStr_iff, hsn]
      exact hk
  have hrawBoth : ∀ mode2 lim2, rawSelect db t (some (schemaNames tbl.schema)) cond mode2 lim2
      = rawSelect db t none cond mode2 lim2 := by
    intro mode2 lim2
    have hms : (tbl.rows.filter (rowMatches tbl.schema cond)).map
          (projectRow tbl.schema (some (schemaNames tbl.schema)))
        = (tbl.rows.filter (rowMatches tbl.schema cond)).map
          (projectRow tbl.schema none) := by
      exact List.map_congr_left (fun r _ => hproj r)
    simp only [rawSelect, h, hcolsOk, hp, Bool.not_true, Bool.false_eq_true, if_false, hms]
    rw [show colsOk tbl.schema none = true from rfl]
    simp
  have hrawOne : ∀ lim2, rawSelect db t none cond .fetchOne lim2
      = .ok (db, .one (((tbl.rows.filter (rowMatches tbl.schema cond)).map
          (normalizeRow tbl.schema)).head?)) := by
    intro lim2
    simp only [rawSelect, h, hp, Bool.not_true, Bool.false_eq_true, if_false,
      projectRow_none]
    rw [show colsOk tbl.schema none = true from rfl]
    simp
  refine ⟨?_, ?_, ?_, ?_, ?_⟩
  · have he : errorWrap (fun d => rawSelect d t none cond mode lim) db
        = errorWrap (fun d => rawSelect d t (some (schemaNames tbl.schema)) cond mode lim) db := by
      simp only [errorWrap]
      rw [hrawBoth mode lim]
    simp only [Database.select, he]
  · simp only [Database.select]
    rw [show (errorWrap (fun d => rawSelect d t cols cond .fetchOne lim) db)
        = (errorWrap (fun d => rawSelect d t cols cond .fetchOne none) db) from by
      simp only [errorWrap]
      rw [show rawSelect db t cols cond .fetchOne lim
          = rawSelect db t cols cond .fetchOne none from rfl]]
  · simp only [Database.select, errorWrap, hrawOne lim, hg]
  · intro k hk
    have hknot : ¬(k ≤ 0) := by omega
    constructor
    · have hraw : rawSelect db t none cond .fetchAll (some k)
          = .ok (db, .many (((tbl.rows.filter (rowMatches tbl.schema cond)).map
              (normalizeRow tbl.schema)).take k.toNat)) := by
        simp only [rawSelect, h, hp, Bool.not_true, Bool.false_eq_true, if_false,
          projectRow_none]
        rw [show colsOk tbl.schema none = true from rfl]
        simp [hknot]
      simp only [Database.select, errorWrap, hraw, hg]
    · rw [List.length_take]
      exact Nat.min_le_left _ _
  · have hraw : rawSelect db t none cond .fetchAll none
        = .ok (db, .many ((tbl.rows.filter (rowMatches tbl.schema cond)).map
            (normalizeRow tbl.schema))) := by
      simp only [rawSelect, h, hp, Bool.not_true, Bool.false_eq_true, if_false,
        projectRow_none]
      rw [show colsOk tbl.schema none = true from rfl]
      simp
    simp only [Database.select, errorWrap, hraw, hg]

/-- Witness for C9 (amended) on a concrete two-row table: fetch-all
with positive limit 1 returns exactly one row; fetch-one (with a limit
supplied, which is ignored) returns the first matching row. -/
theorem c9_select_contract_witness :
    Database.select [("t", ⟨[⟨"a", "TEXT", []⟩], [[Value.strV "x"], [Value.strV "y"]]⟩)]
        "t" none none .fetchAll (some 1)
      = ([("t", ⟨[⟨"a", "TEXT", []⟩], [[Value.strV "x"], [Value.strV "y"]]⟩)], [],
         .ok (.many [[Value.strV "x"]]))
    ∧ Database.select [("t", ⟨[⟨"a", "TEXT", []⟩], [[Value.strV "x"], [Value.strV "y"]]⟩)]
        "t" none none .fetchOne (some 1)
      = ([("t", ⟨[⟨"a", "TEXT", []⟩], [[Value.strV "x"], [Value.strV "y"]]⟩)], [],
         .ok (.one (some [Value.strV "x"]))) := by
  have h := c9_select_contract
    [("t", ⟨[⟨"a", "TEXT", []⟩], [[Value.strV "x"], [Value.strV "y"]]⟩)] "t"
    ⟨[⟨"a", "TEXT", []⟩], [[Value.strV "x"], [Value.strV "y"]]⟩ none none
    Mode.fetchAll (some 1) (by decide) (by decide) (by decide)
  exact ⟨(h.2.2.2.1 1 (by decide)).1.trans (by decide),
    h.2.2.1.trans (by decide)⟩

/-- C6 (confirmed): update scoping (frame property).  If `update` on an
existing table returns a result (rather than the failure value), the
new table state is exactly the old rows transformed pointwise: a row
not matching the predicate is left unchanged (so a record B not
matched by a predicate that matches only A is never mutated), every
matching row has every listed column overwritten with its new value,
and with the predicate absent every row is overwritten.  Other tables
are untouched, and the returned boolean is "some row matched". -/
theorem c6_update_frame (db : DB) (t : String) (tbl : Table)
    (values : List (String × Value)) (cond : Pred) (db2 : DB) (ds : List Diag) (b : Bool)
    (h : dbLookup db t = some tbl)
    (hnd : (values.map Prod.fst).Nodup)
    (hupd : Database.update db t values cond = (db2, ds, .ok b)) :
    (dbLookup db2 t = some ⟨tbl.schema, tbl.rows.map fun r =>
        if rowMatches tbl.schema cond r then overwrite tbl.schema values r else r⟩)
    ∧ (∀ r, rowMatches tbl.schema cond r = false →
        (if rowMatches tbl.schema cond r then overwrite tbl.schema values r else r) = r)
    ∧ (∀ r ∈ tbl.rows, rowMatches tbl.schema cond r = true →
        ∀ p ∈ values, rowCol tbl.schema (overwrite tbl.schema values r) p.1 = p.2)
    ∧ (b = tbl.rows.any (rowMatches tbl.schema cond))
    ∧ (cond = none →
        dbLookup db2 t = some ⟨tbl.schema, tbl.rows.map (overwrite tbl.schema values)⟩)
    ∧ (∀ t2, t2 ≠ t → dbLookup db2 t2 = dbLookup db t2) := by
  have hsplit : (errorWrap (fun d => rawUpdate d t values cond) db).1 = db2
      ∧ (errorWrap (fun d => rawUpdate d t values cond) db).2 = .ok b := by
    have h1 := congrArg Prod.fst hupd
    have h2 := congrArg (fun q => q.2.2) hupd
    exact ⟨h1, h2⟩
  have hew : errorWrap (fun d => rawUpdate d t values cond) db = (db2, .ok b) := by
    rw [Prod.ext_iff]
    exact hsplit
  have hraw : rawUpdate db t values cond = .ok (db2, b) := errorWrap_eq_ok.mp hew
  obtain ⟨hvne, hvkeys, hpred, hdb2, hb⟩ := rawUpdate_ok_inv h hraw
  subst hdb2
  refine ⟨dbLookup_setTable_self h, ?_, ?_, ?_, ?_, ?_⟩
  · intro r hr
    rw [hr]
    simp
  · intro r _ _ p hp
    have hk : p.1 ∈ schemaNames tbl.schema := by
      have := List.all_eq_true.mp hvkeys p hp
      exact containsStr_iff.mp this
    have hv : lookupVal values p.1 = some p.2 := by
      apply lookupVal_of_mem_nodup _ hnd
      exact hp
    exact rowCol_overwrite hk hv
  · rw [hb, decide_filter_pos]
  · intro hc
    subst hc
    rw [dbLookup_setTable_self h]
    have : (tbl.rows.map fun r =>
        if rowMatches tbl.schema (none : Pred) r then overwrite tbl.schema values r else r)
        = tbl.rows.map (overwrite tbl.schema values) := by
      apply List.map_congr_left
      intro r _
      rw [show rowMatches tbl.schema (none : Pred) r = true from rfl]
      simp
    rw [this]
  · intro t2 ht2
    exact dbLookup_setTable_ne ht2

/-- Witness for C6 on a concrete two-row table: updating column `b` of
the row matched by `a = "x"` overwrites it and leaves the other row
(`a = "y"`) untouched. -/
theorem c6_update_frame_witness :
    dbLookup (Database.update
        [("t", ⟨[⟨"a", "TEXT", []⟩, ⟨"b", "TEXT", []⟩],
          [[Value.strV "x", Value.strV "u"], [Value.strV "y", Value.strV "v"]]⟩)]
        "t" [("b", Value.strV "w")] (some [("a", Value.strV "x")])).1 "t"
      = some ⟨[⟨"a", "TEXT", []⟩, ⟨"b", "TEXT", []⟩],
          [[Value.strV "x", Value.strV "w"], [Value.strV "y", Value.strV "v"]]⟩ := by
  have h := c6_update_frame
    [("t", ⟨[⟨"a", "TEXT", []⟩, ⟨"b", "TEXT", []⟩],
      [[Value.strV "x", Value.strV "u"], [Value.strV "y", Value.strV "v"]]⟩)]
    "t"
    ⟨[⟨"a", "TEXT", []⟩, ⟨"b", "TEXT", []⟩],
      [[Value.strV "x", Value.strV "u"], [Value.strV "y", Value.strV "v"]]⟩
    [("b", Value.strV "w")] (some [("a", Value.strV "x")])
    (Database.update
        [("t", ⟨[⟨"a", "TEXT", []⟩, ⟨"b", "TEXT", []⟩],
          [[Value.strV "x", Value.strV "u"], [Value.strV "y", Value.strV "v"]]⟩)]
        "t" [("b", Value.strV "w")] (some [("a", Value.strV "x")])).1
    [] true (by decide) (by decide) (by decide)
  exact h.1.trans (by decide)

/-- C2 (confirmed): scoped-release guarantee.  `body` ranges over every
possible behaviour of the code inside the `with` block — normal
completion, early return, or a raised failure — and on each of them the
handle that leaves `withStore` is closed and its durable state equals
the state the body left in memory: `__exit__` committed the pending
writes and closed the connection before control left the scope. -/
theorem c2_scoped_release (ε α : Type) (disk : DB)
    (body : Handle → Handle × BodyOutcome ε α) :
    (withStore disk body).1.isOpen = false
    ∧ (withStore disk body).1.disk = (body (connect disk)).1.mem
    ∧ (withStore disk body).1.mem = (body (connect disk)).1.mem := by
  exact ⟨rfl, rfl, rfl⟩

/-- C10 (confirmed): `Database.__exit__` returns the tuple
`(args, kwargs)`, which is truthy, so an exception raised in the body
of the `with` block is suppressed after commit and close: nothing
propagates to the caller of the `with` statement. -/
theorem c10_exit_swallows (ε α : Type) (disk : DB)
    (body : Handle → Handle × BodyOutcome ε α) (e : ε)
    (h : (body (connect disk)).2 = .raised e) :
    (withStore disk body).2 = none
    ∧ (withStore disk body).1.isOpen = false
    ∧ (withStore disk body).1.disk = (body (connect disk)).1.mem := by
  refine ⟨?_, rfl, rfl⟩
  simp [withStore, h, exitReturnTruthy, exitReturnLen]

/-- Witness for C10 at a concrete raising body. -/
theorem c10_exit_swallows_witness :
    (withStore ([] : DB)
      (fun h => (h, (BodyOutcome.raised 7 : BodyOutcome Nat Unit)))).2 = none := by
  exact (c10_exit_swallows Nat Unit []
    (fun h => (h, (BodyOutcome.raised 7 : BodyOutcome Nat Unit))) 7 rfl).1

/-- C7 (confirmed): idempotent schema creation.  For every database
state, the "ensure schema" step succeeds (returns rather than raising),
running it a second time is a no-op on the state, and the column
listing of `passwords` is unchanged between the two calls; the
`initialization` wrapper is likewise idempotent on the durable state. -/
theorem c7_idempotent_schema (db : DB) :
    (ensureSchema db).2 = .ok ()
    ∧ ensureSchema (ensureSchema db).1 = ((ensureSchema db).1, .ok ())
    ∧ Database.columns (ensureSchema db).1 "passwords"
        = Database.columns (ensureSchema (ensureSchema db).1).1 "passwords"
    ∧ (initialization ((initialization db).1.disk)).1.disk
        = (initialization db).1.disk := by
  have hne : ¬(passwordsColumns = []) := by decide
  have hpk : ¬(2 ≤ (passwordsColumns.filter ColumnDef.isPK).length) := by decide
  have hform : ∀ d : DB, ensureSchema d =
      (if containsStr (tablesList d) "passwords" = true then (d, .ok ())
       else (d ++ [("passwords", ⟨passwordsColumns, []⟩)], .ok ())) := by
    intro d
    by_cases hc : containsStr (tablesList d) "passwords" = true
    · simp [ensureSchema, Database.create, errorWrap, rawCreate, hne, hpk, hc]
    · have hc' : containsStr (tablesList d) "passwords" = false := by simpa using hc
      simp [ensureSchema, Database.create, errorWrap, rawCreate, hne, hpk, hc']
  have hmem : containsStr (tablesList (ensureSchema db).1) "passwords" = true := by
    rw [hform db]
    by_cases hc : containsStr (tablesList db) "passwords" = true
    · rw [if_pos hc]; exact hc
    · rw [if_neg hc]
      have : tablesList (db ++ [("passwords", ⟨passwordsColumns, []⟩)])
          = tablesList db ++ ["passwords"] := by
        simp [tablesList]
      rw [this, containsStr_iff]
      simp
  have hsecond : ensureSchema (ensureSchema db).1 = ((ensureSchema db).1, .ok ()) := by
    rw [hform ((ensureSchema db).1), if_pos hmem]
  have hfirst : (ensureSchema db).2 = .ok () := by
    rw [hform db]
    by_cases hc : containsStr (tablesList db) "passwords" = true
    · rw [if_pos hc]
    · rw [if_neg hc]
  refine ⟨hfirst, hsecond, by rw [hsecond], ?_⟩
  have hinit : ∀ d : DB, (initialization d).1.disk = (ensureSchema d).1 := by
    intro d; rfl
  rw [hinit, hinit, hsecond]

end Passworld
